import Mathlib

/-!
# Verification of prodigy-pdf recipes

Shallow embedding of the prodigy-pdf repository (`prodigy_pdf/__init__.py` and
`prodigy_pdf/spans.py`) together with proofs about the embedded operations.
Python strings are modelled as `List Char`; the external collaborators (PDF
renderer, PIL, the OCR engine, spaCy) are modelled as abstract inputs or
effect traces, exactly as the functions under verification invoke them.
-/

/-- Python strings, modelled as lists of characters. -/
abbrev PyStr := List Char

/-- Shorthand turning a Lean string literal into the `List Char` model. -/
def chars (s : String) : PyStr := s.toList

/-! ## Python string primitives used by the code -/

/-- The whitespace class stripped by Python `str.strip()` (ASCII subset,
which is the alphabet relevant to this code). -/
def isPySpace (c : Char) : Bool :=
  c == ' ' || c == '\t' || c == '\n' || c == '\r' || c == '\x0b' || c == '\x0c'

/-- Remove leading whitespace (left half of `str.strip()`). -/
def stripLeft (l : PyStr) : PyStr := l.dropWhile isPySpace

/-- Remove trailing whitespace (right half of `str.strip()`). -/
def stripRight (l : PyStr) : PyStr := (l.reverse.dropWhile isPySpace).reverse

/-- Python `str.strip()` with no arguments: trim whitespace at both ends. -/
def pyStrip (l : PyStr) : PyStr := stripLeft (stripRight l)

/-- Python `str.split(sep)` for a single-character separator.  On the empty
string it returns `[""]`, like Python. -/
def pySplit (sep : Char) : PyStr → List PyStr
  | [] => [[]]
  | c :: cs =>
    match pySplit sep cs with
    | [] => if c = sep then [[], []] else [[c]]
    | r :: rs => if c = sep then [] :: r :: rs else (c :: r) :: rs

/-- Python `str.rfind(c)`: highest index at which `c` occurs, `-1` if absent. -/
def pyRfind (sep : Char) : PyStr → Int
  | [] => -1
  | c :: cs =>
    let r := pyRfind sep cs
    if 0 ≤ r then r + 1 else if c = sep then 0 else -1

/-- Python slice `l[:k]` for the non-negative indices produced by `rfind`. -/
def pySliceTo (l : PyStr) (k : Int) : PyStr := l.take k.toNat

/-! ## Text Reconstructor: `fold_ocr_dashes` (`prodigy_pdf/__init__.py`) -/

/-- Body of the loop in `fold_ocr_dashes`: one OCR line is stripped and then
either suffixed with a single space (no dash) or cut at its last dash. -/
def lineFoldCode (line0 : PyStr) : PyStr :=
  if pyRfind '-' (pyStrip line0) = -1 then pyStrip line0 ++ [' ']
  else pySliceTo (pyStrip line0) (pyRfind '-' (pyStrip line0))

/-- Function `fold_ocr_dashes` from `prodigy_pdf/__init__.py`: split the OCR output on
line breaks, transform each line, concatenate and strip the result. -/
def fold_ocr_dashes (ocr_input : PyStr) : PyStr :=
  pyStrip ((pySplit '\n' ocr_input).map lineFoldCode).flatten

/-- Spec-side rendering of "find the last hyphen occurrence and drop it and
everything after it": `some p` is the prefix before the last hyphen, `none`
means the line has no hyphen. -/
def dropAfterLastHyphen : PyStr → Option PyStr
  | [] => none
  | c :: cs =>
    match dropAfterLastHyphen cs with
    | some p => some (c :: p)
    | none => if c = '-' then some [] else none

/-- The fold transform as worded by the spec, to be compared with
`fold_ocr_dashes`: per trimmed line, either append one space or drop from the
last hyphen on; concatenate with no separator; trim the final result. -/
def lineFoldSpec (line0 : PyStr) : PyStr :=
  match dropAfterLastHyphen (pyStrip line0) with
  | none => pyStrip line0 ++ [' ']
  | some p => p

/-- Spec-worded version of the whole fold. -/
def fold_spec (raw : PyStr) : PyStr :=
  pyStrip ((pySplit '\n' raw).map lineFoldSpec).flatten

/-! ## Layout Token Stream (`prodigy_pdf/spans.py`) -/

/-- Constant `SEPARATOR = "\n\n"`. -/
def SEPARATOR : PyStr := chars "\n\n"

/-- Constant `HEADINGS`: the `DocItemLabel` values `SECTION_HEADER`, `PAGE_HEADER`,
`TITLE` (their string values). -/
def HEADINGS : List PyStr := [chars "section_header", chars "page_header", chars "title"]

/-- A spaCy token as consumed by `get_layout_tokens`: its document-level index
`token.i`, its text and whether it is followed by whitespace
(`token.whitespace_`, a single space when present). -/
structure SToken where
  i : Nat
  text : PyStr
  ws : Bool
deriving DecidableEq

/-- The visual styles `get_layout_tokens` can attach to a token. -/
inductive TokStyle where
  | hiddenStyle
  | headingStyle
deriving DecidableEq

/-- The token dictionaries built by `get_layout_tokens`. -/
structure TokenDict where
  text : PyStr
  start : Nat
  «end» : Nat
  id : Nat
  ws : Bool
  layout : Option PyStr
  disabled : Bool
  style : Option TokStyle
deriving DecidableEq

/-- Loop of `get_layout_tokens`, carrying the running `i` (enumerate index)
and `offset`.  The offset advances by `len(token.text)` only. -/
def getLayoutTokensFrom (tl : Nat → Option PyStr) : Nat → Nat → List SToken → List TokenDict
  | _, _, [] => []
  | i, offset, t :: ts =>
    let lab := tl t.i
    { text := t.text
      start := offset
      «end» := offset + t.text.length
      id := i
      ws := t.ws
      layout := lab
      disabled := t.text = SEPARATOR
      style :=
        if (lab.map (fun l => decide (l ∈ HEADINGS))).getD false then some .headingStyle
        else if t.text = SEPARATOR then some .hiddenStyle else none } ::
      getLayoutTokensFrom tl (i + 1) (offset + t.text.length) ts

/-- Function `get_layout_tokens(doc, token_labels)` over the tokens of a span, where
`tl` is the `token_labels` mapping from `token.i` to a layout label. -/
def get_layout_tokens (toks : List SToken) (tl : Nat → Option PyStr) : List TokenDict :=
  getLayoutTokensFrom tl 0 0 toks

/-- Field `token.text_with_ws` in spaCy: the token text plus its trailing space. -/
def text_with_ws (t : SToken) : PyStr := t.text ++ (if t.ws then [' '] else [])

/-- spaCy `Span.text`: all member tokens with their trailing whitespace,
except that the final token contributes only its text. -/
def spanText : List SToken → PyStr
  | [] => []
  | [t] => t.text
  | t :: ts => text_with_ws t ++ spanText ts

/-- The `text`/`tokens` pair of one page task. -/
structure PageTask where
  text : PyStr
  tokens : List TokenDict
deriving DecidableEq

/-- The page dictionary built in `LayoutStream.get_full_stream`: the `text`
field joins the page spans with `SEPARATOR`, the `tokens` field runs
`get_layout_tokens` over the doc slice covering those spans (`sliceToks`,
supplied by spaCy as `doc[page_spans[0].start : page_spans[-1].end]`). -/
def get_full_stream_page (tl : Nat → Option PyStr) (page_spans : List (List SToken))
    (sliceToks : List SToken) : PageTask :=
  { text := List.intercalate SEPARATOR (page_spans.map spanText)
    tokens := get_layout_tokens sliceToks tl }

/-- The `text`/`tokens` pair of one focus-mode task in
`LayoutStream.get_focus_stream`: scoped to a single span. -/
def get_focus_stream_eg (tl : Nat → Option PyStr) (span_toks : List SToken) : PageTask :=
  { text := spanText span_toks
    tokens := get_layout_tokens span_toks tl }

/-- Failing input for the offset invariant: one span whose two tokens are
`"a"` (followed by a space) and `"b"`, i.e. the text `"a b"`. -/
def spC1 : List SToken := [⟨0, ['a'], true⟩, ⟨1, ['b'], false⟩]

/-- The full-page task the embedded code builds from `spC1`. -/
def pageC1 : PageTask := get_full_stream_page (fun _ => none) [spC1] spC1

/-! ## Rasterizer encoding (`page_to_image`, `pdf_to_images`) -/

/-- A PDF page handle (opaque: only its index is observable). -/
structure PdfPage where
  idx : Nat
deriving DecidableEq

/-- The `format=` argument passed to `pil_image.save` in `page_to_image`,
`pdf_to_images` and `page_to_cropped_image`. -/
def saveFormat : PyStr := chars "JPEG"

/-- The literal data-URI head used by all three encoders. -/
def dataUriHead : PyStr := chars "data:image/png;base64,"

/-- Function `page_to_image(page)`: render, save as JPEG, base64-encode, wrap.  The
render + JPEG + base64 chain is the external `jpegEncode` oracle; the
function returns the data-URI string it builds around that payload. -/
def page_to_image (jpegEncode : PdfPage → PyStr) (page : PdfPage) : PyStr :=
  dataUriHead ++ jpegEncode page

/-- Function `pdf_to_images(path)`: one encoded string per page of the document. -/
def pdf_to_images (jpegEncode : PdfPage → PyStr) (pages : List PdfPage) : List PyStr :=
  pages.map (fun p => dataUriHead ++ jpegEncode p)

/-- The media type a data URI declares: the text between `data:` and the
first `;`. -/
def declaredMimeOf (s : PyStr) : Option PyStr :=
  if (chars "data:").isPrefixOf s then
    some ((s.drop 5).takeWhile (fun c => decide (c ≠ ';')))
  else none

/-- Standard media type of each encoder format name (spec side: what a
self-describing URI would have to declare). -/
def mimeOfFormat (f : PyStr) : Option PyStr :=
  if f = chars "JPEG" then some (chars "image/jpeg")
  else if f = chars "PNG" then some (chars "image/png")
  else none

/-! ## Region Mapper (`page_to_cropped_image`) -/

/-- A rendered PIL image; the crop code never reads these bounds. -/
structure PilImage where
  width : Nat
  height : Nat
deriving DecidableEq

/-- A rectangular region in unscaled page coordinates. -/
structure RegionSpan where
  x : Int
  y : Int
  width : Int
  height : Int
deriving DecidableEq

/-- What `page_to_cropped_image` observably does: the pixel box handed to
`pil_page.crop` plus the encoding of the returned image. -/
structure CroppedResult where
  box : Int × Int × Int × Int
  payloadFormat : PyStr
  declaredMime : PyStr
deriving DecidableEq

/-- Function `page_to_cropped_image(pil_page, span, scale)` from
`prodigy_pdf/__init__.py`: scale the four corners and crop; no part of the
computation consults the image bounds. -/
def page_to_cropped_image (pil_page : PilImage) (span : RegionSpan) (scale : Int) :
    CroppedResult :=
  let left := span.x
  let upper := span.y
  let right := left + span.width
  let lower := upper + span.height
  let _ := pil_page
  { box := (left * scale, upper * scale, right * scale, lower * scale)
    payloadFormat := saveFormat
    declaredMime := chars "image/png" }

/-! ## `pdf.image.manual`: color assignment (C6) -/

/-- The fixed 14-color palette defined inside `pdf_image_manual`. -/
def color : List PyStr :=
  [chars "#00ffff", chars "#ff00ff", chars "#00ff7f", chars "#ff6347",
   chars "#00bfff", chars "#ffa500", chars "#ff69b4", chars "#7fffd4",
   chars "#ffd700", chars "#ffdab9", chars "#adff2f", chars "#d2b48c",
   chars "#dcdcdc", chars "#ffff00"]

/-- The dict comprehension `{lab: color[i] for i, lab in enumerate(...)}`,
starting at index `i`: `color[i]` raises `IndexError` (here `none`) as soon
as the running index leaves the palette. -/
def assignColorsFrom : Nat → List PyStr → Option (List (PyStr × PyStr))
  | _, [] => some []
  | i, lab :: rest =>
    match color[i]? with
    | none => none
    | some c => (assignColorsFrom (i + 1) rest).map (fun r => (lab, c) :: r)

/-- The `custom_theme.labels` mapping `pdf_image_manual` builds from the
comma-separated label string. -/
def custom_theme_labels (labels : PyStr) : Option (List (PyStr × PyStr)) :=
  assignColorsFrom 0 (pySplit ',' labels)

/-- The assignment the claim describes: the i-th label receives the i-th
palette color, cycling modulo the palette length. -/
def cyclingAssign (labs : List PyStr) : List (PyStr × PyStr) :=
  labs.mapIdx (fun i lab => (lab, (color[(i % color.length)]?).getD []))

/-! ## Source-directory failure handling (C5) -/

/-- The observable state of a source path: missing, or a directory whose
entries are (plain-file) names. -/
inductive PathState where
  | missing
  | dir (entries : List PyStr)
deriving DecidableEq

/-- Outcome of the argument checking at the top of `pdf_image_manual`:
either `msg.fail(..., exits=True)` terminated the invocation, or the recipe
proceeds with the printed failure messages so far and the globbed paths. -/
inductive CliOutcome where
  | exited (message : PyStr)
  | proceeded (failMsgs : List PyStr) (pdf_paths : List PyStr)
deriving DecidableEq

/-- Whether the invocation was terminated. -/
def CliOutcome.isExited : CliOutcome → Bool
  | .exited _ => true
  | .proceeded _ _ => false

/-- Message of `msg.fail(f"Folder ... does not exist.", exits=True)`. -/
def dirMissingMsg (pdf_folder : PyStr) : PyStr :=
  chars "Folder `" ++ pdf_folder ++ chars "` does not exist."

/-- Message of `msg.fail("Did not find any .pdf files in folder.")`. -/
def noPdfMsg : PyStr := chars "Did not find any .pdf files in folder."

/-- The checks at the start of `pdf_image_manual`: a missing folder exits via
`msg.fail(..., exits=True)`; an empty glob result calls `msg.fail` WITHOUT
`exits=True`, which prints the message and falls through. -/
def pdf_image_manual_start (pdf_folder : PyStr) (st : PathState) : CliOutcome :=
  match st with
  | .missing => .exited (dirMissingMsg pdf_folder)
  | .dir entries =>
    let pdf_paths := entries.filter (fun name => (chars ".pdf").isSuffixOf name)
    if pdf_paths.length = 0 then .proceeded [noPdfMsg] pdf_paths
    else .proceeded [] pdf_paths

/-- Outcome of `LayoutStream.__init__`: `RecipeError` or the selected paths. -/
inductive InitOutcome where
  | errored (message : PyStr)
  | ok (paths : List PyStr)
deriving DecidableEq

/-- Whether `LayoutStream.__init__` raised. -/
def InitOutcome.isErrored : InitOutcome → Bool
  | .errored _ => true
  | .ok _ => false

/-- Message of `RecipeError(f"Can't load from directory {f}", ...)`. -/
def layoutDirMsg (f : PyStr) : PyStr := chars "Can\x27t load from directory " ++ f

/-- Property `pathlib.Path.suffix`: the final extension including its dot, empty when
the only dot is leading or trailing. -/
def pathSuffix (name : PyStr) : PyStr :=
  let i := pyRfind '.' name
  if 0 < i ∧ i < name.length - 1 then name.drop i.toNat else []

/-- The path filter in `LayoutStream.__init__`: keep non-hidden files whose
lower-cased extension (without the dot) is in `file_ext`. -/
def layoutPaths (entries : List PyStr) (file_ext : List PyStr) : List PyStr :=
  entries.filter (fun name =>
    !((chars ".").isPrefixOf name) &&
      ((pathSuffix name).map Char.toLower).drop 1 ∈ file_ext)

/-- Constructor `LayoutStream.__init__`: raises `RecipeError` for a missing directory and
otherwise records the matching paths — with no check that any path matched. -/
def LayoutStream_init (f : PyStr) (st : PathState) (file_ext : List PyStr) : InitOutcome :=
  match st with
  | .missing => .errored (layoutDirMsg f)
  | .dir entries => .ok (layoutPaths entries file_ext)

/-! ## `pdf.ocr.correct` pipeline (C7, C8) -/

/-- The `meta` dictionary of a consumed task (key presence is optional). -/
structure OcrMeta where
  page : Option Nat
  title : Option PyStr
deriving DecidableEq

/-- One annotated span consumed by `pdf.ocr.correct`. -/
structure InSpan where
  id : Nat
  label : PyStr
  x : Int
  y : Int
  width : Int
  height : Int
deriving DecidableEq

/-- A task consumed by `pdf.ocr.correct`; `meta` and `path` may be missing,
a missing `spans` key is read as `[]` via `ex.get("spans", [])`. -/
structure OcrTask where
  meta : Option OcrMeta
  path : Option PyStr
  spans : List InSpan
deriving DecidableEq

/-- The `ValueError` message for a missing `meta` key. -/
def msgMetaMissing : PyStr :=
  chars "It seems the `meta` key is missing from an example. Did you annotate this data with `pdf.image.manual`?"

/-- The `ValueError` message for a missing `path` key. -/
def msgPathMissing : PyStr :=
  chars "It seems the `path` key is missing from an example. Did you annotate this data with `pdf.image.manual`?"

/-- The `ValueError` message for a missing `page` key inside `meta`. -/
def msgPageMissing : PyStr :=
  chars "It seems the `page` key is missing from an example metadata. Did you annotate this data with `pdf.image.manual`?"

/-- Generator `_validate_ocr_example` on one example: check `meta`, then `path`, then
`page` inside `meta`; raise `ValueError` (the error branch) on the first
missing key, otherwise pass the example through. -/
def validate_ocr_example (eg : OcrTask) : Except PyStr OcrTask :=
  match eg.meta with
  | none => .error msgMetaMissing
  | some m =>
    match eg.path with
    | none => .error msgPathMissing
    | some _ =>
      match m.page with
      | none => .error msgPageMissing
      | some _ => .ok eg

/-- Returns `true` on the pass-through branch of the validator. -/
def validPasses (eg : OcrTask) : Bool :=
  match validate_ocr_example eg with
  | .ok _ => true
  | .error _ => false

/-- External calls `new_stream` performs, in order. -/
inductive Effect where
  | openDoc (path : PyStr)
  | renderPage (page : Nat) (scale : Int)
  | cropImage (box : Int × Int × Int × Int)
  | runOcr
deriving DecidableEq

/-- Is this effect a `pdfium.PdfDocument(...)` call? -/
def Effect.isOpen : Effect → Bool
  | .openDoc _ => true
  | _ => false

/-- Is this effect a `page.render(...)` call? -/
def Effect.isRender : Effect → Bool
  | .renderPage _ _ => true
  | _ => false

/-- List `useful_spans`: the spans of the task whose label is in the filter. -/
def useful_spans (labels : List PyStr) (eg : OcrTask) : List InSpan :=
  eg.spans.filter (fun s => decide (s.label ∈ labels))

/-- The span rectangle as a `RegionSpan` for `page_to_cropped_image`. -/
def InSpan.region (s : InSpan) : RegionSpan :=
  { x := s.x, y := s.y, width := s.width, height := s.height }

/-- The re-emitted task for one useful span. -/
structure OutEg where
  label : PyStr
  x : Int
  y : Int
  width : Int
  height : Int
  image : CroppedResult
  text : PyStr
  transcription : PyStr
  metaPage : Nat
deriving DecidableEq

/-- The body of `new_stream` for one consumed task: when a useful span
exists, the document is opened and its page rendered once (outside the
per-span loop), then each useful span is cropped and OCRed.  `ocrF` is the
external `pytesseract.image_to_string`, `render` the external
`page.render(scale=...).to_pil()`. -/
def process_task (labels : List PyStr) (scale : Int) (fold_dashes : Bool)
    (ocrF : Int × Int × Int × Int → PyStr) (render : PyStr → Nat → PilImage)
    (eg : OcrTask) : List Effect × List OutEg :=
  let us := useful_spans labels eg
  if us.isEmpty then ([], [])
  else
    let path := eg.path.getD []
    let pageNo := (eg.meta.bind (fun m => m.page)).getD 0
    let pil := render path pageNo
    let results := us.map (fun s =>
      let res := page_to_cropped_image pil s.region scale
      let rawText := ocrF res.box
      let text := if fold_dashes then fold_ocr_dashes rawText else rawText
      (([Effect.cropImage res.box, Effect.runOcr] : List Effect),
       { label := s.label, x := s.x, y := s.y, width := s.width, height := s.height
         image := res, text := text, transcription := text, metaPage := pageNo }))
    ([Effect.openDoc path, Effect.renderPage pageNo scale] ++ (results.map Prod.fst).flatten,
     results.map Prod.snd)

/-- The composed `pdf.ocr.correct` stream: `stream.apply(_validate_ocr_example)`
followed by `stream.apply(new_stream)`.  Each consumed task passes through
the validator before `new_stream` touches it; a raised `ValueError` stops
the lazy pipeline with the effects of the earlier tasks already performed. -/
def pdf_ocr_pipeline (labels : List PyStr) (scale : Int) (fold_dashes : Bool)
    (ocrF : Int × Int × Int × Int → PyStr) (render : PyStr → Nat → PilImage) :
    List OcrTask → List Effect × List OutEg × Option PyStr
  | [] => ([], [], none)
  | eg :: rest =>
    match validate_ocr_example eg with
    | .error m => ([], [], some m)
    | .ok eg2 =>
      let r := process_task labels scale fold_dashes ocrF render eg2
      let rest2 := pdf_ocr_pipeline labels scale fold_dashes ocrF render rest
      (r.1 ++ rest2.1, r.2 ++ rest2.2.1, rest2.2.2)

/-! ## `pdf.image.manual` stream and `before_db` (C10) -/

/-- A nested page dictionary produced by `generate_pdf_pages`. -/
structure PageEg where
  image : Option PyStr
  path : PyStr
  metaTitle : PyStr
  metaPage : Nat
  view_id : Option PyStr
deriving DecidableEq

/-- A top-level task of `pdf.image.manual`: split mode yields one page task
with a top-level `image` key; bundle mode yields a task with a `pages` list
and NO top-level `image` key. -/
structure ImgEg where
  image : Option PyStr
  pages : Option (List PageEg)
  path : Option PyStr
  metaTitle : PyStr
  metaPage : Option Nat
deriving DecidableEq

/-- A PDF document on disk: its path, file name, and the base64 JPEG payload
each page renders to (external rasterizer output). -/
structure PdfDoc where
  path : PyStr
  name : PyStr
  pagePayloads : List PyStr
deriving DecidableEq

/-- Generator `generate_pdf_pages(pdf_paths, split_pages)`: per document, build one
dictionary per page; with `split_pages` yield them directly, otherwise yield
a single bundle holding all pages (each tagged `view_id="image_manual"`) and
no top-level `image` key. -/
def generate_pdf_pages (docs : List PdfDoc) (split_pages : Bool) : List ImgEg :=
  (docs.map (fun doc =>
    let pageEgs := doc.pagePayloads.mapIdx (fun n payload =>
      ({ image := some (dataUriHead ++ payload), path := doc.path
         metaTitle := doc.name, metaPage := n, view_id := none } : PageEg))
    if split_pages then
      pageEgs.map (fun p =>
        ({ image := p.image, pages := none, path := some p.path
           metaTitle := p.metaTitle, metaPage := some p.metaPage } : ImgEg))
    else
      [({ image := none
          pages := some (pageEgs.map (fun p => { p with view_id := some (chars "image_manual") }))
          path := none, metaTitle := doc.name, metaPage := none } : ImgEg)])).flatten

/-- The `page["image"]` handling inside the `pages` loop of `before_db`: a
missing key raises `KeyError("image")`, a data URI is deleted. -/
def strip_page (p : PageEg) : Except PyStr PageEg :=
  match p.image with
  | none => .error (chars "image")
  | some img => .ok (if (chars "data:").isPrefixOf img then { p with image := none } else p)

/-- Run a fallible action over a list, stopping at the first raise. -/
def mapExcept (f : α → Except ε β) : List α → Except ε (List β)
  | [] => .ok []
  | a :: as' =>
    match f a with
    | .error e => .error e
    | .ok b => (mapExcept f as').map (fun bs => b :: bs)

/-- One iteration of the `before_db` loop in `pdf_image_manual`: it reads
`eg["image"]` unconditionally (a `KeyError` when the key is absent), deletes
it when it is a data URI, then walks `eg.get("pages", [])`. -/
def before_db_one (eg : ImgEg) : Except PyStr ImgEg :=
  match eg.image with
  | none => .error (chars "image")
  | some img =>
    let eg1 := if (chars "data:").isPrefixOf img then { eg with image := none } else eg
    match eg1.pages with
    | none => .ok eg1
    | some ps => (mapExcept strip_page ps).map (fun ps2 => { eg1 with pages := some ps2 })

/-- The `before_db` callback of `pdf_image_manual` over a batch of examples. -/
def before_db (egs : List ImgEg) : Except PyStr (List ImgEg) :=
  mapExcept before_db_one egs

/-- A well-formed consumed task, used as concrete pipeline input. -/
def goodOcrTask : OcrTask :=
  { meta := some { page := some 0, title := none }
    path := some (chars "a.pdf")
    spans := [] }

/-- A consumed task with no `meta` key, used as concrete pipeline input. -/
def badOcrTask : OcrTask :=
  { meta := none, path := some (chars "a.pdf"), spans := [] }

/-- A one-page document used as concrete `pdf.image.manual` input. -/
def docC10 : PdfDoc :=
  { path := chars "d.pdf", name := chars "d.pdf", pagePayloads := [chars "AAAA"] }

/-- The bundled (non-split) task `generate_pdf_pages` builds from `docC10`:
it carries a `pages` list and no top-level `image` key. -/
def egC10 : ImgEg :=
  { image := none
    pages := some [{ image := some (dataUriHead ++ chars "AAAA"), path := chars "d.pdf"
                     metaTitle := chars "d.pdf", metaPage := 0
                     view_id := some (chars "image_manual") }]
    path := none
    metaTitle := chars "d.pdf"
    metaPage := none }

/-! # Lemmas about the Python string primitives -/

theorem pySplit_ne_nil (sep : Char) (s : PyStr) : pySplit sep s ≠ [] := by
  cases s with
  | nil => simp [pySplit]
  | cons c cs =>
    simp only [pySplit]
    split <;> split <;> simp

theorem pySplit_cons_eq (sep c : Char) (cs : PyStr) (r : PyStr) (rs : List PyStr)
    (hsp : pySplit sep cs = r :: rs) :
    pySplit sep (c :: cs) = if c = sep then [] :: r :: rs else (c :: r) :: rs := by
  simp only [pySplit, hsp]

theorem pySplit_not_mem (sep : Char) :
    ∀ (s : PyStr), ∀ piece ∈ pySplit sep s, sep ∉ piece := by
  intro s
  induction s with
  | nil =>
    intro piece hp
    simp only [pySplit, List.mem_singleton] at hp
    simp [hp]
  | cons c cs ih =>
    intro piece hp
    cases hsp : pySplit sep cs with
    | nil => exact absurd hsp (pySplit_ne_nil sep cs)
    | cons r rs =>
      rw [pySplit_cons_eq sep c cs r rs hsp] at hp
      by_cases hc : c = sep
      · rw [if_pos hc] at hp
        rcases List.mem_cons.mp hp with h | h
        · simp [h]
        · exact ih piece (hsp ▸ h)
      · rw [if_neg hc] at hp
        rcases List.mem_cons.mp hp with h | h
        · subst h
          intro hm
          rcases List.mem_cons.mp hm with h | h
          · exact hc h.symm
          · exact ih r (hsp ▸ List.mem_cons_self r rs) h
        · exact ih piece (hsp ▸ List.mem_cons_of_mem r h)

theorem pySplit_eq_single (sep : Char) (s : PyStr) (h : sep ∉ s) :
    pySplit sep s = [s] := by
  induction s with
  | nil => rfl
  | cons c cs ih =>
    have hc : ¬ c = sep := fun e => h (e ▸ List.mem_cons_self c cs)
    have hcs : sep ∉ cs := fun m => h (List.mem_cons_of_mem c m)
    simp only [pySplit, ih hcs, if_neg hc]

theorem pyRfind_of_not_mem {sep : Char} {l : PyStr} (h : sep ∉ l) :
    pyRfind sep l = -1 := by
  induction l with
  | nil => rfl
  | cons c cs ih =>
    have hc : ¬ c = sep := fun e => h (e ▸ List.mem_cons_self c cs)
    have hcs : pyRfind sep cs = -1 := ih (fun m => h (List.mem_cons_of_mem c m))
    simp [pyRfind, hcs, hc]

theorem pyRfind_dropAfterLastHyphen (l : PyStr) :
    (pyRfind '-' l = -1 ∧ dropAfterLastHyphen l = none) ∨
    (∃ (k : Nat) (p : PyStr),
      pyRfind '-' l = (k : Int) ∧ dropAfterLastHyphen l = some p ∧ l.take k = p) := by
  induction l with
  | nil => exact Or.inl ⟨rfl, rfl⟩
  | cons c cs ih =>
    rcases ih with ⟨h1, h2⟩ | ⟨k, p, h1, h2, h3⟩
    · by_cases hc : c = '-'
      · refine Or.inr ⟨0, [], ?_, ?_, rfl⟩
        · simp [pyRfind, h1, hc]
        · simp [dropAfterLastHyphen, h2, hc]
      · refine Or.inl ⟨?_, ?_⟩
        · simp [pyRfind, h1, hc]
        · simp [dropAfterLastHyphen, h2, hc]
    · refine Or.inr ⟨k + 1, c :: p, ?_, ?_, ?_⟩
      · simp only [pyRfind, h1]
        have : (0 : Int) ≤ (k : Int) := Int.natCast_nonneg k
        rw [if_pos this]
        push_cast
        ring
      · simp [dropAfterLastHyphen, h2]
      · simp [List.take_succ_cons, h3]

theorem lineFold_eq (line0 : PyStr) : lineFoldCode line0 = lineFoldSpec line0 := by
  unfold lineFoldCode lineFoldSpec
  rcases pyRfind_dropAfterLastHyphen (pyStrip line0) with ⟨h1, h2⟩ | ⟨k, p, h1, h2, h3⟩
  · rw [if_pos h1, h2]
  · have hne : ¬ pyRfind '-' (pyStrip line0) = -1 := by rw [h1]; omega
    rw [if_neg hne, h2, h1]
    simpa [pySliceTo] using h3

theorem head?_dropWhile_false (p : α → Bool) (l : List α) {a : α}
    (h : (l.dropWhile p).head? = some a) : p a = false := by
  induction l with
  | nil => simp at h
  | cons c cs ih =>
    rw [List.dropWhile_cons] at h
    by_cases hc : p c
    · rw [if_pos hc] at h; exact ih h
    · rw [if_neg hc] at h
      simp only [List.head?_cons, Option.some.injEq] at h
      subst h
      exact Bool.eq_false_iff.mpr hc

theorem dropWhile_dropWhile (p : α → Bool) (l : List α) :
    (l.dropWhile p).dropWhile p = l.dropWhile p := by
  cases h : l.dropWhile p with
  | nil => rfl
  | cons a as =>
    have ha : p a = false := head?_dropWhile_false p l (by rw [h]; rfl)
    simp [List.dropWhile_cons, ha]

theorem getLast?_dropWhile (p : α → Bool) (l : List α) (h : l.dropWhile p ≠ []) :
    (l.dropWhile p).getLast? = l.getLast? := by
  induction l with
  | nil => simp at h
  | cons c cs ih =>
    rw [List.dropWhile_cons] at h ⊢
    by_cases hc : p c
    · rw [if_pos hc] at h ⊢
      cases cs with
      | nil => simp at h
      | cons b bs => rw [ih h]; exact (List.getLast?_cons_cons ..).symm
    · rw [if_neg hc]

theorem dropWhile_head_not (p : α → Bool) (l : List α)
    (h : ∀ a, l.head? = some a → p a = false) : l.dropWhile p = l := by
  cases l with
  | nil => rfl
  | cons c cs =>
    rw [List.dropWhile_cons, if_neg]
    simp [h c rfl]

theorem stripRight_getLast {l : PyStr} {a : Char}
    (h : (stripRight l).getLast? = some a) : isPySpace a = false := by
  unfold stripRight at h
  rw [List.getLast?_reverse] at h
  exact head?_dropWhile_false _ _ h

theorem pyStrip_getLast {l : PyStr} {a : Char}
    (h : (pyStrip l).getLast? = some a) : isPySpace a = false := by
  unfold pyStrip stripLeft at h
  have hne : (stripRight l).dropWhile isPySpace ≠ [] := by
    intro hh; rw [hh] at h; simp at h
  rw [getLast?_dropWhile _ _ hne] at h
  exact stripRight_getLast h

theorem stripRight_of_getLast {l : PyStr}
    (h : ∀ a, l.getLast? = some a → isPySpace a = false) : stripRight l = l := by
  unfold stripRight
  rw [dropWhile_head_not isPySpace l.reverse
    (fun a ha => h a (by rwa [List.head?_reverse] at ha))]
  exact List.reverse_reverse l

theorem pyStrip_idem (l : PyStr) : pyStrip (pyStrip l) = pyStrip l := by
  have h1 : stripRight (pyStrip l) = pyStrip l :=
    stripRight_of_getLast (fun a ha => pyStrip_getLast ha)
  calc pyStrip (pyStrip l) = stripLeft (stripRight (pyStrip l)) := rfl
    _ = stripLeft (pyStrip l) := by rw [h1]
    _ = stripLeft (stripLeft (stripRight l)) := rfl
    _ = stripLeft (stripRight l) := dropWhile_dropWhile _ _
    _ = pyStrip l := rfl

theorem stripRight_append_space (l : PyStr) : stripRight (l ++ [' ']) = stripRight l := by
  unfold stripRight
  have h : (l ++ [' ']).reverse = ' ' :: l.reverse := by simp
  rw [h, List.dropWhile_cons, if_pos (by decide : isPySpace ' ' = true)]

theorem pyStrip_append_space (l : PyStr) : pyStrip (l ++ [' ']) = pyStrip l := by
  unfold pyStrip
  rw [stripRight_append_space]

theorem not_mem_stripLeft {c : Char} {l : PyStr} (h : c ∉ l) : c ∉ stripLeft l :=
  fun hm => h ((List.dropWhile_sublist isPySpace).mem hm)

theorem not_mem_stripRight {c : Char} {l : PyStr} (h : c ∉ l) : c ∉ stripRight l := by
  intro hm
  unfold stripRight at hm
  rw [List.mem_reverse] at hm
  exact h (List.mem_reverse.mp ((List.dropWhile_sublist isPySpace).mem hm))

theorem not_mem_pyStrip {c : Char} {l : PyStr} (h : c ∉ l) : c ∉ pyStrip l :=
  not_mem_stripLeft (not_mem_stripRight h)

theorem fold_no_newline (s : PyStr) : '\n' ∉ fold_ocr_dashes s := by
  apply not_mem_pyStrip
  intro hm
  rw [List.mem_flatten] at hm
  obtain ⟨piece, hp, hc⟩ := hm
  rw [List.mem_map] at hp
  obtain ⟨line0, hline, rfl⟩ := hp
  have hnl : '\n' ∉ pyStrip line0 := not_mem_pyStrip (pySplit_not_mem '\n' s line0 hline)
  unfold lineFoldCode at hc
  by_cases hr : pyRfind '-' (pyStrip line0) = -1
  · rw [if_pos hr] at hc
    rcases List.mem_append.mp hc with h | h
    · exact hnl h
    · simp at h
  · rw [if_neg hr] at hc
    exact hnl (List.take_subset _ _ hc)

theorem fold_idem_of_no_dash (x : PyStr) (h : '-' ∉ fold_ocr_dashes x) :
    fold_ocr_dashes (fold_ocr_dashes x) = fold_ocr_dashes x := by
  have hnl : '\n' ∉ fold_ocr_dashes x := fold_no_newline x
  have hstrip : pyStrip (fold_ocr_dashes x) = fold_ocr_dashes x := pyStrip_idem _
  have hsingle : pySplit '\n' (fold_ocr_dashes x) = [fold_ocr_dashes x] :=
    pySplit_eq_single '\n' _ hnl
  have hrf : pyRfind '-' (pyStrip (fold_ocr_dashes x)) = -1 := by
    rw [hstrip]; exact pyRfind_of_not_mem h
  show pyStrip ((pySplit '\n' (fold_ocr_dashes x)).map lineFoldCode).flatten
      = fold_ocr_dashes x
  rw [hsingle]
  simp only [List.map_cons, List.map_nil, List.flatten_cons, List.flatten_nil,
    List.append_nil]
  unfold lineFoldCode
  rw [if_pos hrf, hstrip, pyStrip_append_space, hstrip]

/-! # Claim theorems: the Text Reconstructor -/

/-- C2: `fold_ocr_dashes` computes exactly the specified transform — split on
line breaks, trim each line, append one space to hyphen-free lines, cut
hyphenated lines at the last hyphen, concatenate with no separator and trim;
it is total and maps the empty string to the empty string. -/
theorem C2_fold_ocr_dashes_matches_spec :
    (∀ s : PyStr, fold_ocr_dashes s = fold_spec s) ∧ fold_ocr_dashes [] = [] := by
  constructor
  · intro s
    unfold fold_ocr_dashes fold_spec
    rw [show lineFoldCode = lineFoldSpec from funext lineFold_eq]
  · rfl

/-- C3: `fold_ocr_dashes` is idempotent on outputs containing no hyphen, and
for every input the output has no trailing whitespace and no embedded
line-break characters. -/
theorem C3_fold_ocr_dashes_algebra :
    (∀ x : PyStr, '-' ∉ fold_ocr_dashes x →
      fold_ocr_dashes (fold_ocr_dashes x) = fold_ocr_dashes x) ∧
    (∀ (x : PyStr) (a : Char),
      (fold_ocr_dashes x).getLast? = some a → isPySpace a = false) ∧
    (∀ x : PyStr, '\n' ∉ fold_ocr_dashes x) :=
  ⟨fold_idem_of_no_dash, fun _ _ ha => pyStrip_getLast ha, fold_no_newline⟩

/-- Witness for C3 at the concrete input `"ab"`. -/
theorem C3_fold_ocr_dashes_algebra_witness :
    ('-' ∉ fold_ocr_dashes ['a', 'b']) ∧
    fold_ocr_dashes (fold_ocr_dashes ['a', 'b']) = fold_ocr_dashes ['a', 'b'] ∧
    (fold_ocr_dashes ['a', 'b']).getLast? = some 'b' ∧ isPySpace 'b' = false ∧
    '\n' ∉ fold_ocr_dashes ['a', 'b'] :=
  ⟨by decide, C3_fold_ocr_dashes_algebra.1 ['a', 'b'] (by decide), by decide,
   C3_fold_ocr_dashes_algebra.2.1 ['a', 'b'] 'b' (by decide),
   C3_fold_ocr_dashes_algebra.2.2 ['a', 'b']⟩

/-! # Claim theorems: the Layout Token Stream -/

/-- C1 (refuting evaluation): on a page whose single span has the spaCy
tokens `"a"` (followed by a space) and `"b"`, i.e. the page text `"a b"`,
the emitted offsets ignore the whitespace: the final token's `end` is `2`
while the shipped `text` has length `3`, and slicing the text at the final
token's offsets yields `" "` instead of that token's text `"b"`. -/
theorem C1_token_offsets_failing_input :
    pageC1.text = ['a', ' ', 'b'] ∧
    pageC1.text.length = 3 ∧
    pageC1.tokens.map (fun t => (t.start, t.«end»)) = [(0, 1), (1, 2)] ∧
    pageC1.tokens.map (fun t => t.text) = [['a'], ['b']] ∧
    pageC1.tokens.map (fun t => (pageC1.text.drop t.start).take (t.«end» - t.start))
      = [['a'], [' ']] ∧
    ([['a'], [' ']] : List PyStr) ≠ [['a'], ['b']] ∧
    (pageC1.tokens.getLast?).map (fun t => t.«end») = some 2 ∧ (2 : Nat) ≠ 3 := by
  decide

/-! # Claim theorems: Region Mapper and Rasterizer encoding -/

/-- C4: `page_to_cropped_image` crops at exactly the pixel box
`(x·scale, y·scale, (x+width)·scale, (y+height)·scale)` and performs no
clamping: the box never depends on the rendered image, hence is unchanged
for regions partially or fully outside its bounds. -/
theorem C4_crop_box_exact (img img2 : PilImage) (span : RegionSpan) (scale : Int) :
    (page_to_cropped_image img span scale).box =
      (span.x * scale, span.y * scale,
        (span.x + span.width) * scale, (span.y + span.height) * scale) ∧
    (page_to_cropped_image img span scale).box =
      (page_to_cropped_image img2 span scale).box :=
  ⟨rfl, rfl⟩

/-- C9 (counterexample): the string returned by `page_to_image` declares the
media type `image/png` while its payload was encoded with `format="JPEG"`
(media type `image/jpeg`), so the declared type does not match the payload. -/
theorem C9_mime_mismatch_counterexample :
    declaredMimeOf (page_to_image (fun _ => chars "AAAA") ⟨0⟩) = some (chars "image/png") ∧
    saveFormat = chars "JPEG" ∧
    mimeOfFormat saveFormat = some (chars "image/jpeg") ∧
    declaredMimeOf (page_to_image (fun _ => chars "AAAA") ⟨0⟩) ≠ mimeOfFormat saveFormat := by
  refine ⟨rfl, rfl, rfl, ?_⟩
  decide

/-- C9 (amended): `page_to_image` and `pdf_to_images` encode each rendered
page with the lossy `JPEG` format and wrap it in a `data:image/png;base64,`
URI, so the declared media type is always `image/png` and never matches the
JPEG payload encoding. -/
theorem C9_encoding_amended (jpegEncode : PdfPage → PyStr) (page : PdfPage)
    (pages : List PdfPage) :
    page_to_image jpegEncode page = chars "data:image/png;base64," ++ jpegEncode page ∧
    declaredMimeOf (page_to_image jpegEncode page) = some (chars "image/png") ∧
    saveFormat = chars "JPEG" ∧
    mimeOfFormat saveFormat ≠ declaredMimeOf (page_to_image jpegEncode page) ∧
    pdf_to_images jpegEncode pages = pages.map (page_to_image jpegEncode) := by
  refine ⟨rfl, rfl, rfl, ?_, rfl⟩
  intro h
  rw [show declaredMimeOf (page_to_image jpegEncode page) = some (chars "image/png") from rfl]
    at h
  simp [mimeOfFormat, saveFormat, chars] at h

/-! # Claim theorems: label colors in `pdf.image.manual` -/

theorem assignColorsFrom_ok (labs : List PyStr) :
    ∀ i : Nat, i + labs.length ≤ color.length →
      assignColorsFrom i labs = some (labs.zip (color.drop i)) := by
  induction labs with
  | nil => intro i _; simp [assignColorsFrom]
  | cons lab rest ih =>
    intro i h
    have hi : i < color.length := by simp only [List.length_cons] at h; omega
    simp only [assignColorsFrom]
    rw [List.getElem?_eq_getElem hi]
    rw [ih (i + 1) (by simp only [List.length_cons] at h; omega)]
    rw [List.drop_eq_getElem_cons hi, List.zip_cons_cons]
    rfl

theorem assignColorsFrom_overflow (labs : List PyStr) :
    ∀ i : Nat, labs ≠ [] → color.length < i + labs.length →
      assignColorsFrom i labs = none := by
  induction labs with
  | nil => intro i h _; exact absurd rfl h
  | cons lab rest ih =>
    intro i _ h
    simp only [assignColorsFrom]
    cases hg : color[i]? with
    | none => rfl
    | some c =>
      have hi : i < color.length := by
        by_contra hni
        rw [List.getElem?_eq_none (by omega)] at hg
        exact absurd hg (by simp)
      have hrest : rest ≠ [] := by
        intro he
        subst he
        simp only [List.length_cons, List.length_nil] at h
        omega
      rw [ih (i + 1) hrest (by simp only [List.length_cons] at h ⊢; omega)]
      rfl

set_option maxRecDepth 4000 in
/-- C6 (counterexample): for the 15-element label list
`"a,b,...,o"` and the fixed 14-color palette the code produces no
assignment at all — `color[i]` raises `IndexError` at `i = 14` — whereas
the claim promises a cycled assignment for label lists of any length
(whose 15th pair would reuse the first palette color). -/
theorem C6_color_cycling_counterexample :
    custom_theme_labels (chars "a,b,c,d,e,f,g,h,i,j,k,l,m,n,o") = none ∧
    (pySplit ',' (chars "a,b,c,d,e,f,g,h,i,j,k,l,m,n,o")).length = 15 ∧
    color.length = 14 ∧
    (cyclingAssign (pySplit ',' (chars "a,b,c,d,e,f,g,h,i,j,k,l,m,n,o"))).length = 15 ∧
    (cyclingAssign (pySplit ',' (chars "a,b,c,d,e,f,g,h,i,j,k,l,m,n,o"))).getLast? =
      some (chars "o", chars "#00ffff") := by
  decide

/-- C6 (amended): the i-th label receives the i-th color of the fixed
palette with NO cycling: the assignment is produced exactly when the
comma-split label list is no longer than the 14-color palette, and a longer
list makes the comprehension raise `IndexError` (no assignment). -/
theorem C6_color_assignment_amended (labels : PyStr) :
    ((pySplit ',' labels).length ≤ color.length →
      custom_theme_labels labels = some ((pySplit ',' labels).zip color)) ∧
    (color.length < (pySplit ',' labels).length →
      custom_theme_labels labels = none) := by
  constructor
  · intro h
    unfold custom_theme_labels
    rw [assignColorsFrom_ok _ 0 (by omega)]
    simp
  · intro h
    unfold custom_theme_labels
    refine assignColorsFrom_overflow _ 0 ?_ (by omega)
    intro he
    rw [he] at h
    simp at h

/-- Witness for C6 (amended) at `"a,b"` (within the palette) and at the
15-label list (beyond the palette). -/
theorem C6_color_assignment_amended_witness :
    ((pySplit ',' (chars "a,b")).length ≤ color.length) ∧
    custom_theme_labels (chars "a,b") = some ((pySplit ',' (chars "a,b")).zip color) ∧
    (color.length < (pySplit ',' (chars "a,b,c,d,e,f,g,h,i,j,k,l,m,n,o")).length) ∧
    custom_theme_labels (chars "a,b,c,d,e,f,g,h,i,j,k,l,m,n,o") = none :=
  ⟨by decide, (C6_color_assignment_amended (chars "a,b")).1 (by decide),
   by decide,
   (C6_color_assignment_amended (chars "a,b,c,d,e,f,g,h,i,j,k,l,m,n,o")).2 (by decide)⟩

/-! # Claim theorems: source-directory failure handling -/

/-- C5 (counterexample): on an existing directory holding no matching file,
neither recipe terminates the invocation: `pdf_image_manual` calls
`msg.fail` without `exits=True` — the distinct message is printed but the
recipe proceeds with an empty path list — and `LayoutStream.__init__`
accepts the empty selection silently. -/
theorem C5_empty_dir_counterexample :
    pdf_image_manual_start (chars "pdfs") (.dir [chars "notes.txt"]) =
      .proceeded [noPdfMsg] [] ∧
    (pdf_image_manual_start (chars "pdfs") (.dir [chars "notes.txt"])).isExited = false ∧
    LayoutStream_init (chars "pdfs") (.dir [chars "notes.txt"]) [chars "pdf"] = .ok [] ∧
    (LayoutStream_init (chars "pdfs") (.dir [chars "notes.txt"])
      [chars "pdf"]).isErrored = false := by
  decide

/-- C5 (amended): a nonexistent source directory terminates the invocation
with a directory-not-found failure in both recipes, and that message is
distinct from the no-matching-files message; but a directory with zero
matching files does not terminate the invocation — `pdf.image.manual`
prints the distinct no-matching-files message and proceeds with an empty
stream, and `LayoutStream.__init__` proceeds silently. -/
theorem C5_failure_handling_amended (f : PyStr) (entries : List PyStr)
    (exts : List PyStr) :
    pdf_image_manual_start f .missing = .exited (dirMissingMsg f) ∧
    LayoutStream_init f .missing exts = .errored (layoutDirMsg f) ∧
    dirMissingMsg f ≠ noPdfMsg ∧
    ((entries.filter (fun name => (chars ".pdf").isSuffixOf name)).length = 0 →
      pdf_image_manual_start f (.dir entries) = .proceeded [noPdfMsg]
        (entries.filter (fun name => (chars ".pdf").isSuffixOf name))) ∧
    (layoutPaths entries exts = [] →
      LayoutStream_init f (.dir entries) exts = .ok []) := by
  refine ⟨rfl, rfl, ?_, ?_, ?_⟩
  · intro h
    injection h with h1 _
    exact absurd h1 (by decide)
  · intro h
    simp only [pdf_image_manual_start]
    rw [if_pos h]
  · intro h
    simp only [LayoutStream_init]
    rw [h]

/-- Witness for C5 (amended) at a concrete folder and entry list. -/
theorem C5_failure_handling_amended_witness :
    (([chars "notes.txt"].filter
      (fun name => (chars ".pdf").isSuffixOf name)).length = 0) ∧
    layoutPaths [chars "notes.txt"] [chars "pdf"] = [] ∧
    pdf_image_manual_start (chars "pdfs") PathState.missing =
      .exited (dirMissingMsg (chars "pdfs")) ∧
    dirMissingMsg (chars "pdfs") ≠ noPdfMsg ∧
    pdf_image_manual_start (chars "pdfs") (.dir [chars "notes.txt"]) =
      .proceeded [noPdfMsg]
        ([chars "notes.txt"].filter (fun name => (chars ".pdf").isSuffixOf name)) ∧
    LayoutStream_init (chars "pdfs") (.dir [chars "notes.txt"]) [chars "pdf"] =
      .ok [] :=
  ⟨by decide, by decide,
   (C5_failure_handling_amended (chars "pdfs") [chars "notes.txt"] [chars "pdf"]).1,
   (C5_failure_handling_amended (chars "pdfs") [chars "notes.txt"] [chars "pdf"]).2.2.1,
   (C5_failure_handling_amended (chars "pdfs") [chars "notes.txt"]
     [chars "pdf"]).2.2.2.1 (by decide),
   (C5_failure_handling_amended (chars "pdfs") [chars "notes.txt"]
     [chars "pdf"]).2.2.2.2 (by decide)⟩

/-! # Claim theorems: `pdf.ocr.correct` -/

theorem countP_flatten_zero {α : Type} {p : α → Bool} (L : List (List α))
    (h : ∀ l ∈ L, l.countP p = 0) : L.flatten.countP p = 0 := by
  induction L with
  | nil => rfl
  | cons l ls ih =>
    rw [List.flatten_cons, List.countP_append, h l (List.mem_cons_self l ls),
      ih (fun m hm => h m (List.mem_cons_of_mem l hm))]

/-- C7: for every consumed task of `pdf.ocr.correct`, the source document is
opened (and its page rendered) exactly when the task has at least one span
whose label is in the caller's filter, and then exactly once each, no matter
how many spans of the task require cropping. -/
theorem C7_lazy_document_open (labels : List PyStr) (scale : Int) (fold_dashes : Bool)
    (ocrF : Int × Int × Int × Int → PyStr) (render : PyStr → Nat → PilImage)
    (eg : OcrTask) :
    ((process_task labels scale fold_dashes ocrF render eg).1.countP Effect.isOpen =
      if (useful_spans labels eg).isEmpty then 0 else 1) ∧
    ((process_task labels scale fold_dashes ocrF render eg).1.countP Effect.isRender =
      if (useful_spans labels eg).isEmpty then 0 else 1) ∧
    (process_task labels scale fold_dashes ocrF render eg).1.countP Effect.isOpen ≤ 1 := by
  have hcrop : ∀ (l : List Effect),
      l ∈ ((useful_spans labels eg).map (fun s =>
        let res := page_to_cropped_image
          (render (eg.path.getD []) ((eg.meta.bind (fun m => m.page)).getD 0))
          s.region scale
        ([Effect.cropImage res.box, Effect.runOcr] : List Effect))) →
      (l.countP Effect.isOpen = 0 ∧ l.countP Effect.isRender = 0) := by
    intro l hl
    rw [List.mem_map] at hl
    obtain ⟨s, _, rfl⟩ := hl
    exact ⟨rfl, rfl⟩
  by_cases hus : (useful_spans labels eg).isEmpty
  · simp [process_task, hus]
  · refine ⟨?_, ?_, ?_⟩ <;>
      simp only [process_task, if_neg hus, List.countP_append, List.map_map]
    · rw [countP_flatten_zero _ (fun l hl => ((by simpa using hcrop l (by simpa using hl)) :
        l.countP Effect.isOpen = 0 ∧ l.countP Effect.isRender = 0).1)]
      simp [hus, List.countP_cons, Effect.isOpen, Effect.isRender]
    · rw [countP_flatten_zero _ (fun l hl => ((by simpa using hcrop l (by simpa using hl)) :
        l.countP Effect.isOpen = 0 ∧ l.countP Effect.isRender = 0).2)]
      simp [hus, List.countP_cons, Effect.isOpen, Effect.isRender]
    · rw [countP_flatten_zero _ (fun l hl => ((by simpa using hcrop l (by simpa using hl)) :
        l.countP Effect.isOpen = 0 ∧ l.countP Effect.isRender = 0).1)]
      simp [List.countP_cons, Effect.isOpen, Effect.isRender]

theorem pipeline_stops_at_error (labels : List PyStr) (scale : Int)
    (fold_dashes : Bool) (ocrF : Int × Int × Int × Int → PyStr)
    (render : PyStr → Nat → PilImage) (eg : OcrTask) (post : List OcrTask) {m : PyStr}
    (hm : validate_ocr_example eg = .error m) :
    ∀ pre : List OcrTask, (∀ e ∈ pre, validPasses e = true) →
      pdf_ocr_pipeline labels scale fold_dashes ocrF render (pre ++ eg :: post) =
        ((pdf_ocr_pipeline labels scale fold_dashes ocrF render pre).1,
         (pdf_ocr_pipeline labels scale fold_dashes ocrF render pre).2.1, some m) := by
  intro pre
  induction pre with
  | nil =>
    intro _
    simp [pdf_ocr_pipeline, hm]
  | cons e pre ih =>
    intro hpre
    have he : validPasses e = true := hpre e (List.mem_cons_self e pre)
    cases hve : validate_ocr_example e with
    | error m2 => rw [validPasses, hve] at he; simp at he
    | ok e2 =>
      have ihr := ih (fun x hx => hpre x (List.mem_cons_of_mem e hx))
      simp only [List.cons_append, pdf_ocr_pipeline, hve, List.append_eq, ihr]

/-- C8: every consumed task lacking the `meta` key, the `path` key, or the
`page` key inside `meta` raises a `ValueError` naming that key, before any
cropping or OCR of that task: the pipeline stops with exactly the effects
and outputs of the earlier (valid) tasks. -/
theorem C8_validation_before_processing (labels : List PyStr) (scale : Int)
    (fold_dashes : Bool) (ocrF : Int × Int × Int × Int → PyStr)
    (render : PyStr → Nat → PilImage) (pre : List OcrTask) (eg : OcrTask)
    (post : List OcrTask)
    (hpre : ∀ e ∈ pre, validPasses e = true)
    (hbad : eg.meta = none ∨ eg.path = none ∨ eg.meta.bind (fun mt => mt.page) = none) :
    ∃ m, validate_ocr_example eg = .error m ∧
      pdf_ocr_pipeline labels scale fold_dashes ocrF render (pre ++ eg :: post) =
        ((pdf_ocr_pipeline labels scale fold_dashes ocrF render pre).1,
         (pdf_ocr_pipeline labels scale fold_dashes ocrF render pre).2.1, some m) ∧
      (eg.meta = none → m = msgMetaMissing) ∧
      (eg.meta ≠ none → eg.path = none → m = msgPathMissing) ∧
      (eg.meta ≠ none → eg.path ≠ none → m = msgPageMissing) := by
  have herr : ∃ m, validate_ocr_example eg = .error m ∧
      (eg.meta = none → m = msgMetaMissing) ∧
      (eg.meta ≠ none → eg.path = none → m = msgPathMissing) ∧
      (eg.meta ≠ none → eg.path ≠ none → m = msgPageMissing) := by
    cases hmeta : eg.meta with
    | none =>
      refine ⟨msgMetaMissing, ?_, fun _ => rfl, ?_, ?_⟩
      · simp [validate_ocr_example, hmeta]
      · intro h; exact (h rfl).elim
      · intro h; exact (h rfl).elim
    | some mv =>
      cases hpath : eg.path with
      | none =>
        refine ⟨msgPathMissing, ?_, ?_, fun _ _ => rfl, ?_⟩
        · simp [validate_ocr_example, hmeta, hpath]
        · intro h; simp at h
        · intro _ h; exact (h rfl).elim
      | some pv =>
        have hpage : mv.page = none := by
          rcases hbad with h | h | h
          · rw [hmeta] at h; exact absurd h (by simp)
          · rw [hpath] at h; exact absurd h (by simp)
          · rw [hmeta] at h; simpa using h
        refine ⟨msgPageMissing, ?_, ?_, ?_, fun _ _ => rfl⟩
        · simp [validate_ocr_example, hmeta, hpath, hpage]
        · intro h; simp at h
        · intro _ h; simp at h
  obtain ⟨m, hm, h1, h2, h3⟩ := herr
  exact ⟨m, hm,
    pipeline_stops_at_error labels scale fold_dashes ocrF render eg post hm pre hpre,
    h1, h2, h3⟩

/-- Witness for C8: one valid task followed by a task with no `meta` key. -/
theorem C8_validation_before_processing_witness :
    (∀ e ∈ [goodOcrTask], validPasses e = true) ∧
    (badOcrTask.meta = none ∨ badOcrTask.path = none ∨
      badOcrTask.meta.bind (fun mt => mt.page) = none) ∧
    (∃ m, validate_ocr_example badOcrTask = .error m ∧
      pdf_ocr_pipeline [] 3 false (fun _ => []) (fun _ _ => ⟨0, 0⟩)
          ([goodOcrTask] ++ badOcrTask :: []) =
        ((pdf_ocr_pipeline [] 3 false (fun _ => []) (fun _ _ => ⟨0, 0⟩) [goodOcrTask]).1,
         (pdf_ocr_pipeline [] 3 false (fun _ => []) (fun _ _ => ⟨0, 0⟩)
           [goodOcrTask]).2.1, some m) ∧
      (badOcrTask.meta = none → m = msgMetaMissing) ∧
      (badOcrTask.meta ≠ none → badOcrTask.path = none → m = msgPathMissing) ∧
      (badOcrTask.meta ≠ none → badOcrTask.path ≠ none → m = msgPageMissing)) :=
  ⟨by decide, by decide,
   C8_validation_before_processing [] 3 false (fun _ => []) (fun _ _ => ⟨0, 0⟩)
     [goodOcrTask] badOcrTask [] (by decide) (by decide)⟩

/-! # Claim theorems: `before_db` on bundled tasks -/

/-- C10: with `split_pages` unset, every task produced by
`generate_pdf_pages` is a bundle carrying no top-level `image` key, and the
`before_db` of `pdf_image_manual` — which reads `eg["image"]`
unconditionally — raises `KeyError("image")` on any batch starting with such
a task instead of stripping the page images and returning the examples. -/
theorem C10_before_db_keyerror :
    (∀ (docs : List PdfDoc) (eg : ImgEg),
      eg ∈ generate_pdf_pages docs false → eg.image = none) ∧
    (∀ (eg : ImgEg) (rest : List ImgEg), eg.image = none →
      before_db (eg :: rest) = .error (chars "image")) := by
  constructor
  · intro docs eg heg
    unfold generate_pdf_pages at heg
    rw [List.mem_flatten] at heg
    obtain ⟨l, hl, hm⟩ := heg
    rw [List.mem_map] at hl
    obtain ⟨doc, _, rfl⟩ := hl
    simp only [Bool.false_eq_true, if_false, List.mem_singleton] at hm
    rw [hm]
  · intro eg rest h
    simp only [before_db, mapExcept, before_db_one, h]

/-- Witness for C10 at a concrete one-page document. -/
theorem C10_before_db_keyerror_witness :
    egC10 ∈ generate_pdf_pages [docC10] false ∧
    egC10.image = none ∧
    before_db [egC10] = .error (chars "image") :=
  ⟨by decide,
   C10_before_db_keyerror.1 [docC10] egC10 (by decide),
   C10_before_db_keyerror.2 egC10 [] (by decide)⟩
